import Mathlib

/-! Verification of the hand-cricket game core (`src/main.py`).

The per-frame loop body of `play_hand_cricket` is embedded as a pure step
function on a `GameState` record; each tick consumes an externally supplied
detection result, random opponent move and keyboard command.  The gesture
classifier `get_hand_run` is embedded over the vertical coordinates of the
21 hand landmarks (floats in the source, modelled as rationals: only `<`
comparisons are performed on them).
-/

namespace HandCricket

/-- The 21 hand landmarks, each reduced to its vertical (`y`) coordinate,
which is all `get_hand_run` reads. -/
def Landmarks := Fin 21 → ℚ

/-- `get_hand_run(hand_landmarks, handedness)` from `src/main.py`
(lines 122-161).  `tip_ids = [4, 8, 12, 16, 20]`, `pip_ids = [3, 6, 10, 14, 18]`;
the thumb contributes 6 when its tip is above (smaller `y` than) its own pip
joint and the index, middle and ring tips; each other finger contributes 1
when its tip is above its pip joint; the sum is mapped into `[1, 6]`.
`handedness` is computed into `is_right_hand` but never used, as in the source. -/
def get_hand_run (lm : Landmarks) (handedness : String) : Nat :=
  let _is_right_hand : Bool := handedness == "Right"
  let thumb : Nat :=
    if lm 4 < lm 3 ∧ lm 4 < lm 8 ∧ lm 4 < lm 12 ∧ lm 4 < lm 16 then 6 else 0
  let index_f : Nat := if lm 8 < lm 6 then 1 else 0
  let middle_f : Nat := if lm 12 < lm 10 then 1 else 0
  let ring_f : Nat := if lm 16 < lm 14 then 1 else 0
  let pinky_f : Nat := if lm 20 < lm 18 then 1 else 0
  let finger_count := thumb + index_f + middle_f + ring_f + pinky_f
  max 1 (min 6 finger_count)

/-- The mutable session variables of `play_hand_cricket` (lines 294-316) that
the game logic reads or writes; celebration/audio bookkeeping is external
presentation state and is omitted. -/
structure GameState where
  clock : Int
  playerMove : Option Nat
  computerMove : Option Nat
  gametext : String
  success : Bool
  gameresult : String
  playerScore : Nat
  computerScore : Nat
  scoredThisRound : Bool
  isPlayerBatting : Bool
  isOut : Bool
  innings : Nat
  roundNum : Nat
  gameStarted : Bool
  target : Option Nat
  gameOver : Bool
deriving Repr, DecidableEq

/-- Initial values of the session variables (lines 295-316). -/
def initState : GameState where
  clock := 0
  playerMove := none
  computerMove := none
  gametext := "Press \x27S\x27 to Start the Game!"
  success := true
  gameresult := ""
  playerScore := 0
  computerScore := 0
  scoredThisRound := false
  isPlayerBatting := true
  isOut := false
  innings := 1
  roundNum := 0
  gameStarted := false
  target := none
  gameOver := false

/-- The keyboard command seen by one loop iteration: no relevant key,
`s` (start) or `n` (restart).  `q` only exits the loop and never reaches
the state logic, so it is not modelled. -/
inductive Key where
  | noKey
  | startKey
  | restartKey
deriving Repr, DecidableEq

/-- External inputs consumed by one loop iteration: the detection result
(at most one hand, with handedness label), the value `random.choice`
would return at this tick, and the pressed key. -/
structure TickInput where
  detection : Option (Landmarks × String)
  randMove : Nat
  key : Key

def winText : String := "You Won the Game! Press \x27N\x27 to restart"

def loseText : String := "You Lost the Game! Press \x27N\x27 to restart"

def tieText : String := "It\x27s a Tie! Press \x27N\x27 to restart"

def retryText : String := "Hand not detected! Please show your hand clearly."

def pressStartText : String := "Press \x27S\x27 to Start the Game!"

def battingText (isPlayerBatting : Bool) : String :=
  let batter := if isPlayerBatting then "You" else "Computer"
  s!"{batter} batting - Show your hand!"

def resolveResultText (pm cm : Nat) : String := s!"You: {pm}  |  Computer: {cm}"

def outText (m : Nat) : String := s!"OUT! Both showed {m}!"

def playerScoredText (r : Nat) : String := s!"You scored {r} run(s)!"

def computerScoredText (r : Nat) : String := s!"Computer scored {r} run(s)!"

def chasedText (ps : Nat) : String := s!"Computer Won! They chased the target of {ps + 1}!"

def inningsOverText (ps : Nat) : String := s!"Innings Over! Computer needs {ps + 1} to win."

/-- Round start (lines 391-394): when the clock is 0 and the game has
started, the round number is incremented and `scored_this_round` and
`gameresult` are reset. -/
def roundStart (s : GameState) : GameState :=
  if s.clock = 0 ∧ s.gameStarted = true then
    { s with roundNum := s.roundNum + 1, scoredThisRound := false, gameresult := "" }
  else s

/-- The `elif` chain on `clock` (lines 406-499): lead-in, awaiting gesture,
capture at 15, outcome resolution in (15, 25), innings/match checkpoint
at 25, auto-advance past 25.  In the window (15, 25) with `success` true the
source formats and uses `player_move`/`computer_move` as plain ints; the
moves are `Option` here, so formatting and the run amount go through
`Option.getD 0` (a corner the source only reaches with both moves set). -/
def gameLogic (s : GameState) (inp : TickInput) : GameState :=
  if s.gameStarted = false then
    { s with gametext := pressStartText }
  else if 0 ≤ s.clock ∧ s.clock < 5 then
    { s with success := true, gametext := "Get Ready..." }
  else if 5 ≤ s.clock ∧ s.clock < 15 then
    { s with gametext := battingText s.isPlayerBatting }
  else if s.clock = 15 then
    match inp.detection with
    | some (lm, handed) =>
        { s with playerMove := some (get_hand_run lm handed),
                 computerMove := some inp.randMove }
    | none => { s with success := false }
  else if 15 < s.clock ∧ s.clock < 25 then
    if s.success = true then
      let pm := s.playerMove.getD 0
      let cm := s.computerMove.getD 0
      let s1 := { s with gameresult := resolveResultText pm cm }
      if s1.scoredThisRound = false then
        let s2 :=
          if s1.playerMove = s1.computerMove then
            { s1 with gametext := outText pm,
                      isOut := true,
                      gameOver := s1.innings == 2 }
          else
            let run := if s1.isPlayerBatting then pm else cm
            if s1.isPlayerBatting = true then
              { s1 with playerScore := s1.playerScore + run,
                        gametext := playerScoredText run }
            else
              let s3 := { s1 with computerScore := s1.computerScore + run,
                                  gametext := computerScoredText run }
              if s3.innings = 2 ∧ s3.computerScore > s3.playerScore then
                { s3 with gametext := chasedText s3.playerScore,
                          isOut := true,
                          gameOver := true }
              else s3
        { s2 with scoredThisRound := true }
      else s1
    else
      { s with gametext := retryText }
  else if s.clock = 25 then
    if s.isOut = true then
      if s.innings = 1 then
        { s with target := some s.playerScore,
                 isPlayerBatting := false,
                 isOut := false,
                 gametext := inningsOverText s.playerScore,
                 innings := s.innings + 1,
                 gameOver := false }
      else
        if s.playerScore > s.computerScore then
          { s with gameOver := true, gametext := winText }
        else if s.computerScore > s.playerScore then
          { s with gameOver := true, gametext := loseText }
        else
          { s with gameOver := true, gametext := tieText }
    else s
  else if 25 < s.clock then
    if s.gameOver = false then
      { s with clock := -1, gametext := "", gameresult := "",
               playerMove := none, computerMove := none, success := true }
    else s
  else s

/-- The restart branch of the key handler (lines 521-539): every session
variable is reset to its initial value (`gametext` to the empty string;
the press-start prompt is re-derived on the next tick). -/
def restartReset (s : GameState) : GameState :=
  { s with playerScore := 0, computerScore := 0, isPlayerBatting := true,
           innings := 1, roundNum := 0, clock := 0, gametext := "",
           gameresult := "", playerMove := none, computerMove := none,
           isOut := false, success := true, scoredThisRound := false,
           gameStarted := false, target := none, gameOver := false }

/-- Key handling (lines 512-553): `s` starts the game when not started,
`n` restarts when the game is over; anything else is ignored. -/
def keyLogic (s : GameState) (k : Key) : GameState :=
  match k with
  | .noKey => s
  | .startKey =>
      if s.gameStarted = false then
        { s with gameStarted := true, clock := 0, gametext := "" }
      else s
  | .restartKey =>
      if s.gameOver = true then restartReset s else s

/-- Clock increment (lines 555-559): advance while the match is running,
or for a bounded grace window (clock ≤ 50) after the match ends. -/
def clockInc (s : GameState) : GameState :=
  if s.gameStarted = true ∧ s.gameOver = false then
    { s with clock := s.clock + 1 }
  else if s.gameStarted = true ∧ s.gameOver = true ∧ s.clock ≤ 50 then
    { s with clock := s.clock + 1 }
  else s

/-- One full loop iteration, in source order: round start, game logic,
key handling, clock increment. -/
def step (s : GameState) (inp : TickInput) : GameState :=
  clockInc (keyLogic (gameLogic (roundStart s) inp) inp.key)

/-- Running the loop over a list of per-tick inputs. -/
def runMatch (s : GameState) (inps : List TickInput) : GameState :=
  inps.foldl step s

/-- The classifier as the specification describes it: the raw sum `S` is 6
when the thumb tip (landmark 4) is vertically above its lower joint
(landmark 3) and the index, middle and ring tips (landmarks 8, 12, 16),
plus 1 for each of the four fingers whose tip (8, 12, 16, 20) is above its
lower joint (6, 10, 14, 18); the result is `max(1, min(6, S))`. -/
def classifierSpec (lm : Landmarks) : Nat :=
  let thumbWeight : Nat :=
    if lm 4 < lm 3 ∧ lm 4 < lm 8 ∧ lm 4 < lm 12 ∧ lm 4 < lm 16 then 6 else 0
  let fingerWeights : Nat :=
    (if lm 8 < lm 6 then 1 else 0) + (if lm 12 < lm 10 then 1 else 0) +
      (if lm 16 < lm 14 then 1 else 0) + (if lm 20 < lm 18 then 1 else 0)
  max 1 (min 6 (thumbWeight + fingerWeights))

/-- C8: for every 21-landmark input and any handedness label, `get_hand_run`
computes exactly the clamped weighted finger sum `max(1, min(6, S))` of the
specification, and its result always lies in `[1, 6]`. -/
theorem get_hand_run_matches_spec (lm : Landmarks) (handedness : String) :
    get_hand_run lm handedness = classifierSpec lm ∧
      1 ≤ get_hand_run lm handedness ∧ get_hand_run lm handedness ≤ 6 := by
  refine ⟨?_, ?_, ?_⟩
  · unfold get_hand_run classifierSpec
    split_ifs <;> rfl
  · unfold get_hand_run
    exact le_max_left _ _
  · unfold get_hand_run
    exact max_le (by norm_num) (min_le_left _ _)

/-- C10: whenever the thumb test passes (landmark 4 vertically above
landmarks 3, 8, 12 and 16), the classifier returns exactly 6, whatever the
other fingers do: the thumb weight of 6 alone reaches the upper clamp. -/
theorem thumb_forces_six (lm : Landmarks) (handedness : String)
    (h3 : lm 4 < lm 3) (h8 : lm 4 < lm 8) (h12 : lm 4 < lm 12)
    (h16 : lm 4 < lm 16) :
    get_hand_run lm handedness = 6 := by
  unfold get_hand_run
  rw [if_pos ⟨h3, h8, h12, h16⟩]
  split_ifs <;> rfl

/-- A concrete pose whose thumb tip is above everything else. -/
def thumbUpPose : Landmarks := fun i => if i.val = 4 then 0 else 1

theorem thumb_forces_six_witness : get_hand_run thumbUpPose "Left" = 6 :=
  thumb_forces_six thumbUpPose "Left" (by decide) (by decide) (by decide)
    (by decide)

/-! Stage lemmas:

Small rewriting lemmas for each stage of a tick, used to settle the claims
about the state machine. -/

theorem roundStart_of_clock_ne (s : GameState) (h : s.clock ≠ 0) :
    roundStart s = s := by
  unfold roundStart
  rw [if_neg]
  rintro ⟨h0, -⟩
  exact h h0

theorem keyLogic_noKey (s : GameState) : keyLogic s .noKey = s := rfl

theorem keyLogic_startKey_started (s : GameState) (h : s.gameStarted = true) :
    keyLogic s .startKey = s := by
  simp only [keyLogic]
  rw [if_neg]
  simp [h]

theorem keyLogic_restartKey_notOver (s : GameState) (h : s.gameOver = false) :
    keyLogic s .restartKey = s := by
  simp only [keyLogic]
  rw [if_neg]
  simp [h]

theorem clockInc_playerScore (s : GameState) :
    (clockInc s).playerScore = s.playerScore := by
  unfold clockInc; split_ifs <;> rfl

theorem clockInc_computerScore (s : GameState) :
    (clockInc s).computerScore = s.computerScore := by
  unfold clockInc; split_ifs <;> rfl

theorem clockInc_isOut (s : GameState) : (clockInc s).isOut = s.isOut := by
  unfold clockInc; split_ifs <;> rfl

theorem clockInc_gameOver (s : GameState) :
    (clockInc s).gameOver = s.gameOver := by
  unfold clockInc; split_ifs <;> rfl

theorem clockInc_innings (s : GameState) :
    (clockInc s).innings = s.innings := by
  unfold clockInc; split_ifs <;> rfl

theorem clockInc_target (s : GameState) : (clockInc s).target = s.target := by
  unfold clockInc; split_ifs <;> rfl

theorem clockInc_isPlayerBatting (s : GameState) :
    (clockInc s).isPlayerBatting = s.isPlayerBatting := by
  unfold clockInc; split_ifs <;> rfl

theorem clockInc_scoredThisRound (s : GameState) :
    (clockInc s).scoredThisRound = s.scoredThisRound := by
  unfold clockInc; split_ifs <;> rfl

theorem clockInc_success (s : GameState) :
    (clockInc s).success = s.success := by
  unfold clockInc; split_ifs <;> rfl

theorem clockInc_playerMove (s : GameState) :
    (clockInc s).playerMove = s.playerMove := by
  unfold clockInc; split_ifs <;> rfl

theorem clockInc_computerMove (s : GameState) :
    (clockInc s).computerMove = s.computerMove := by
  unfold clockInc; split_ifs <;> rfl

theorem clockInc_gametext (s : GameState) :
    (clockInc s).gametext = s.gametext := by
  unfold clockInc; split_ifs <;> rfl

theorem clockInc_roundNum (s : GameState) :
    (clockInc s).roundNum = s.roundNum := by
  unfold clockInc; split_ifs <;> rfl

theorem clockInc_clock_running (s : GameState) (hg : s.gameStarted = true)
    (ho : s.gameOver = false) : (clockInc s).clock = s.clock + 1 := by
  unfold clockInc
  rw [if_pos ⟨hg, ho⟩]

/-- In the resolve window with capture succeeded, the round not yet scored
and both moves equal, `gameLogic` applies the dismissal outcome. -/
theorem gameLogic_out (s : GameState) (inp : TickInput)
    (hg : s.gameStarted = true) (h1 : 15 < s.clock) (h2 : s.clock < 25)
    (hsu : s.success = true) (hsc : s.scoredThisRound = false)
    (heq : s.playerMove = s.computerMove) :
    gameLogic s inp =
      { s with gameresult := resolveResultText (s.playerMove.getD 0) (s.computerMove.getD 0),
               gametext := outText (s.playerMove.getD 0),
               isOut := true,
               gameOver := s.innings == 2,
               scoredThisRound := true } := by
  unfold gameLogic
  rw [if_neg (by simp [hg]), if_neg (by omega), if_neg (by omega),
      if_neg (by omega), if_pos ⟨h1, h2⟩, if_pos hsu]
  dsimp only
  rw [if_pos hsc, if_pos heq]

/-- In the resolve window, capture succeeded, round not yet scored, moves
different and the player batting: the player's score gains the player's
move. -/
theorem gameLogic_score_player (s : GameState) (inp : TickInput)
    (hg : s.gameStarted = true) (h1 : 15 < s.clock) (h2 : s.clock < 25)
    (hsu : s.success = true) (hsc : s.scoredThisRound = false)
    (hne : s.playerMove ≠ s.computerMove) (hb : s.isPlayerBatting = true) :
    gameLogic s inp =
      { s with gameresult := resolveResultText (s.playerMove.getD 0) (s.computerMove.getD 0),
               gametext := playerScoredText (s.playerMove.getD 0),
               playerScore := s.playerScore + s.playerMove.getD 0,
               scoredThisRound := true } := by
  unfold gameLogic
  rw [if_neg (by simp [hg]), if_neg (by omega), if_neg (by omega),
      if_neg (by omega), if_pos ⟨h1, h2⟩, if_pos hsu]
  dsimp only
  rw [if_pos hsc, if_neg hne, hb, if_pos rfl, if_pos rfl]

/-- In the resolve window, capture succeeded, round not yet scored, moves
different, the computer batting, and the chase not yet successful: the
computer's score gains the computer's move and nothing else changes. -/
theorem gameLogic_score_comp_nochase (s : GameState) (inp : TickInput)
    (hg : s.gameStarted = true) (h1 : 15 < s.clock) (h2 : s.clock < 25)
    (hsu : s.success = true) (hsc : s.scoredThisRound = false)
    (hne : s.playerMove ≠ s.computerMove) (hb : s.isPlayerBatting = false)
    (hnc : ¬(s.innings = 2 ∧ s.computerScore + s.computerMove.getD 0 > s.playerScore)) :
    gameLogic s inp =
      { s with gameresult := resolveResultText (s.playerMove.getD 0) (s.computerMove.getD 0),
               gametext := computerScoredText (s.computerMove.getD 0),
               computerScore := s.computerScore + s.computerMove.getD 0,
               scoredThisRound := true } := by
  have hb' : ¬ s.isPlayerBatting = true := by simp [hb]
  unfold gameLogic
  rw [if_neg (by simp [hg]), if_neg (by omega), if_neg (by omega),
      if_neg (by omega), if_pos ⟨h1, h2⟩, if_pos hsu]
  dsimp only
  rw [if_pos hsc, if_neg hne, if_neg hb', hb, if_neg (by simp : ¬false = true),
      if_neg hnc]

/-- In the resolve window, capture succeeded, round not yet scored, moves
different, the computer batting in innings 2, and the updated computer
score exceeding the player score: the chase-success shortcut ends the
match at this tick. -/
theorem gameLogic_score_comp_chase (s : GameState) (inp : TickInput)
    (hg : s.gameStarted = true) (h1 : 15 < s.clock) (h2 : s.clock < 25)
    (hsu : s.success = true) (hsc : s.scoredThisRound = false)
    (hne : s.playerMove ≠ s.computerMove) (hb : s.isPlayerBatting = false)
    (hch : s.innings = 2 ∧ s.computerScore + s.computerMove.getD 0 > s.playerScore) :
    gameLogic s inp =
      { s with gameresult := resolveResultText (s.playerMove.getD 0) (s.computerMove.getD 0),
               gametext := chasedText s.playerScore,
               computerScore := s.computerScore + s.computerMove.getD 0,
               isOut := true,
               gameOver := true,
               scoredThisRound := true } := by
  have hb' : ¬ s.isPlayerBatting = true := by simp [hb]
  unfold gameLogic
  rw [if_neg (by simp [hg]), if_neg (by omega), if_neg (by omega),
      if_neg (by omega), if_pos ⟨h1, h2⟩, if_pos hsu]
  dsimp only
  rw [if_pos hsc, if_neg hne, if_neg hb', hb, if_neg (by simp : ¬false = true),
      if_pos hch]

/-- In the resolve window after the round is already scored, only the
result line is re-displayed. -/
theorem gameLogic_scored_already (s : GameState) (inp : TickInput)
    (hg : s.gameStarted = true) (h1 : 15 < s.clock) (h2 : s.clock < 25)
    (hsu : s.success = true) (hsc : s.scoredThisRound = true) :
    gameLogic s inp =
      { s with gameresult := resolveResultText (s.playerMove.getD 0) (s.computerMove.getD 0) } := by
  unfold gameLogic
  rw [if_neg (by simp [hg]), if_neg (by omega), if_neg (by omega),
      if_neg (by omega), if_pos ⟨h1, h2⟩, if_pos hsu]
  dsimp only
  rw [if_neg (by simp [hsc])]

/-- In the resolve window after a failed capture, only the retry message is
shown. -/
theorem gameLogic_failure (s : GameState) (inp : TickInput)
    (hg : s.gameStarted = true) (h1 : 15 < s.clock) (h2 : s.clock < 25)
    (hfail : s.success = false) :
    gameLogic s inp = { s with gametext := retryText } := by
  unfold gameLogic
  rw [if_neg (by simp [hg]), if_neg (by omega), if_neg (by omega),
      if_neg (by omega), if_pos ⟨h1, h2⟩, if_neg (by simp [hfail])]

/-- At the capture tick with no hand detected, the round is marked
unresolved and nothing else changes. -/
theorem gameLogic_capture_none (s : GameState) (inp : TickInput)
    (hg : s.gameStarted = true) (h15 : s.clock = 15)
    (hd : inp.detection = none) :
    gameLogic s inp = { s with success := false } := by
  unfold gameLogic
  rw [if_neg (by simp [hg]), if_neg (by omega), if_neg (by omega), if_pos h15,
      hd]

/-- At the capture tick with a hand detected, both moves are sampled. -/
theorem gameLogic_capture_some (s : GameState) (inp : TickInput)
    (hg : s.gameStarted = true) (h15 : s.clock = 15)
    (lm : Landmarks) (handed : String) (hd : inp.detection = some (lm, handed)) :
    gameLogic s inp =
      { s with playerMove := some (get_hand_run lm handed),
               computerMove := some inp.randMove } := by
  unfold gameLogic
  rw [if_neg (by simp [hg]), if_neg (by omega), if_neg (by omega), if_pos h15,
      hd]

/-- At the checkpoint tick with a dismissal in innings 1, the innings
transition runs. -/
theorem gameLogic_innings_transition (s : GameState) (inp : TickInput)
    (hg : s.gameStarted = true) (h25 : s.clock = 25) (ho : s.isOut = true)
    (hi : s.innings = 1) :
    gameLogic s inp =
      { s with target := some s.playerScore,
               isPlayerBatting := false,
               isOut := false,
               gametext := inningsOverText s.playerScore,
               innings := s.innings + 1,
               gameOver := false } := by
  unfold gameLogic
  rw [if_neg (by simp [hg]), if_neg (by omega), if_neg (by omega),
      if_neg (by omega), if_neg (by omega), if_pos h25, if_pos ho, if_pos hi]

/-- At the checkpoint tick with a dismissal and the innings past the
first, the match is finalized by comparing the scores. -/
theorem gameLogic_finalize (s : GameState) (inp : TickInput)
    (hg : s.gameStarted = true) (h25 : s.clock = 25) (ho : s.isOut = true)
    (hi : s.innings ≠ 1) :
    gameLogic s inp =
      if s.playerScore > s.computerScore then
        { s with gameOver := true, gametext := winText }
      else if s.computerScore > s.playerScore then
        { s with gameOver := true, gametext := loseText }
      else
        { s with gameOver := true, gametext := tieText } := by
  unfold gameLogic
  rw [if_neg (by simp [hg]), if_neg (by omega), if_neg (by omega),
      if_neg (by omega), if_neg (by omega), if_pos h25, if_pos ho, if_neg hi]

/-- Past the checkpoint with the match still running, the round
auto-advances: the clock is reset (to 0 after the final increment) and the
transient round data is cleared. -/
theorem gameLogic_advance (s : GameState) (inp : TickInput)
    (hg : s.gameStarted = true) (h26 : 25 < s.clock)
    (hov : s.gameOver = false) :
    gameLogic s inp =
      { s with clock := -1, gametext := "", gameresult := "",
               playerMove := none, computerMove := none, success := true } := by
  unfold gameLogic
  rw [if_neg (by simp [hg]), if_neg (by omega), if_neg (by omega),
      if_neg (by omega), if_neg (by omega), if_neg (by omega), if_pos h26,
      if_pos hov]

/-- Once the game has started, every key except restart is ignored. -/
theorem keyLogic_started_nonrestart (s : GameState) (k : Key)
    (hg : s.gameStarted = true) (hk : k ≠ Key.restartKey) :
    keyLogic s k = s := by
  cases k
  · rfl
  · exact keyLogic_startKey_started s hg
  · exact absurd rfl hk

/-- No key except restart can clear the per-round outcome guard. -/
theorem keyLogic_keeps_scored (s : GameState) (k : Key)
    (hk : k ≠ Key.restartKey) (hs : s.scoredThisRound = true) :
    (keyLogic s k).scoredThisRound = true := by
  cases k
  · exact hs
  · simp only [keyLogic]
    split_ifs <;> exact hs
  · exact absurd rfl hk

/-- With the match running (not over), every key is ignored. -/
theorem keyLogic_ignored (s : GameState) (k : Key) (hg : s.gameStarted = true)
    (ho : s.gameOver = false) : keyLogic s k = s := by
  cases k
  · rfl
  · exact keyLogic_startKey_started s hg
  · exact keyLogic_restartKey_notOver s ho

theorem roundStart_of_not (s : GameState)
    (h : ¬(s.clock = 0 ∧ s.gameStarted = true)) : roundStart s = s := by
  unfold roundStart
  rw [if_neg h]

/-- Before the start command, only the prompt text is written. -/
theorem gameLogic_not_started (s : GameState) (inp : TickInput)
    (hg : s.gameStarted = false) :
    gameLogic s inp = { s with gametext := pressStartText } := by
  unfold gameLogic
  rw [if_pos hg]

/-- A negative clock (transient) falls through every phase. -/
theorem gameLogic_idle_neg (s : GameState) (inp : TickInput)
    (hg : s.gameStarted = true) (hc : s.clock < 0) : gameLogic s inp = s := by
  unfold gameLogic
  rw [if_neg (by simp [hg]), if_neg (by omega), if_neg (by omega),
      if_neg (by omega), if_neg (by omega), if_neg (by omega),
      if_neg (by omega)]

/-- Lead-in phase (0 ≤ clock < 5): countdown text, capture re-armed. -/
theorem gameLogic_leadin (s : GameState) (inp : TickInput)
    (hg : s.gameStarted = true) (h0 : 0 ≤ s.clock) (h5 : s.clock < 5) :
    gameLogic s inp = { s with success := true, gametext := "Get Ready..." } := by
  unfold gameLogic
  rw [if_neg (by simp [hg]), if_pos ⟨h0, h5⟩]

/-- Awaiting-gesture phase (5 ≤ clock < 15): batter prompt only. -/
theorem gameLogic_await (s : GameState) (inp : TickInput)
    (hg : s.gameStarted = true) (h5 : 5 ≤ s.clock) (h15 : s.clock < 15) :
    gameLogic s inp = { s with gametext := battingText s.isPlayerBatting } := by
  unfold gameLogic
  rw [if_neg (by simp [hg]), if_neg (by omega), if_pos ⟨h5, h15⟩]

/-- The checkpoint tick does nothing without a dismissal. -/
theorem gameLogic_checkpoint_notOut (s : GameState) (inp : TickInput)
    (hg : s.gameStarted = true) (h25 : s.clock = 25) (ho : s.isOut = false) :
    gameLogic s inp = s := by
  unfold gameLogic
  rw [if_neg (by simp [hg]), if_neg (by omega), if_neg (by omega),
      if_neg (by omega), if_neg (by omega), if_pos h25, if_neg (by simp [ho])]

/-- Past the checkpoint with the match over, nothing is reset. -/
theorem gameLogic_past_over (s : GameState) (inp : TickInput)
    (hg : s.gameStarted = true) (h26 : 25 < s.clock) (hov : s.gameOver = true) :
    gameLogic s inp = s := by
  unfold gameLogic
  rw [if_neg (by simp [hg]), if_neg (by omega), if_neg (by omega),
      if_neg (by omega), if_neg (by omega), if_neg (by omega), if_pos h26,
      if_neg (by simp [hov])]

/-- `gameLogic` never clears the per-round outcome guard: only the round
start (and a restart) reset it. -/
theorem gameLogic_keeps_scored (s : GameState) (inp : TickInput)
    (hs : s.scoredThisRound = true) :
    (gameLogic s inp).scoredThisRound = true := by
  cases hg : s.gameStarted
  · rw [gameLogic_not_started s inp hg]
    exact hs
  · rcases lt_trichotomy s.clock 15 with h | h | h
    · rcases lt_or_le s.clock 0 with h0 | h0
      · rw [gameLogic_idle_neg s inp hg h0]
        exact hs
      · rcases lt_or_le s.clock 5 with h5 | h5
        · rw [gameLogic_leadin s inp hg h0 h5]
          exact hs
        · rw [gameLogic_await s inp hg h5 h]
          exact hs
    · cases hd : inp.detection with
      | none =>
          rw [gameLogic_capture_none s inp hg h hd]
          exact hs
      | some p =>
          rw [gameLogic_capture_some s inp hg h p.1 p.2 (by rw [hd])]
          exact hs
    · rcases lt_trichotomy s.clock 25 with h25 | h25 | h25
      · cases hsu : s.success
        · rw [gameLogic_failure s inp hg h h25 hsu]
          exact hs
        · rw [gameLogic_scored_already s inp hg h h25 hsu hs]
          exact hs
      · cases ho : s.isOut
        · rw [gameLogic_checkpoint_notOut s inp hg h25 ho]
          exact hs
        · by_cases hi : s.innings = 1
          · rw [gameLogic_innings_transition s inp hg h25 ho hi]
            exact hs
          · rw [gameLogic_finalize s inp hg h25 ho hi]
            split_ifs <;> exact hs
      · cases hov : s.gameOver
        · rw [gameLogic_advance s inp hg h25 hov]
          exact hs
        · rw [gameLogic_past_over s inp hg h25 hov]
          exact hs

/-! The claims. -/

/-- C1: once a round has applied its outcome (`scoredThisRound = true`), no
later tick of the round applies it again: the guard stays true until the
next round start (clock 0 with the game running) or a restart, and while
the guard is true a tick in the resolve window leaves the scores,
dismissal flag and game-over flag untouched. -/
theorem scored_at_most_once (s : GameState) (inp : TickInput)
    (hs : s.scoredThisRound = true)
    (hr : ¬(s.clock = 0 ∧ s.gameStarted = true))
    (hk : inp.key ≠ Key.restartKey) :
    (step s inp).scoredThisRound = true ∧
      (s.gameStarted = true → 15 < s.clock → s.clock < 25 →
        (step s inp).playerScore = s.playerScore ∧
        (step s inp).computerScore = s.computerScore ∧
        (step s inp).isOut = s.isOut ∧
        (step s inp).gameOver = s.gameOver) := by
  have hrs : roundStart s = s := roundStart_of_not s hr
  constructor
  · unfold step
    rw [clockInc_scoredThisRound, hrs]
    exact keyLogic_keeps_scored _ _ hk (gameLogic_keeps_scored s inp hs)
  · intro hg h1 h2
    cases hsu : s.success
    · have hgl := gameLogic_failure s inp hg h1 h2 hsu
      have hgst : (gameLogic s inp).gameStarted = true := by rw [hgl]; exact hg
      unfold step
      rw [hrs, keyLogic_started_nonrestart _ _ hgst hk, clockInc_playerScore,
          clockInc_computerScore, clockInc_isOut, clockInc_gameOver, hgl]
      exact ⟨rfl, rfl, rfl, rfl⟩
    · have hgl := gameLogic_scored_already s inp hg h1 h2 hsu hs
      have hgst : (gameLogic s inp).gameStarted = true := by rw [hgl]; exact hg
      unfold step
      rw [hrs, keyLogic_started_nonrestart _ _ hgst hk, clockInc_playerScore,
          clockInc_computerScore, clockInc_isOut, clockInc_gameOver, hgl]
      exact ⟨rfl, rfl, rfl, rfl⟩

def noInput : TickInput := { detection := none, randMove := 3, key := Key.noKey }

def w1State : GameState where
  clock := 18
  playerMove := some 4
  computerMove := some 2
  gametext := ""
  success := true
  gameresult := ""
  playerScore := 6
  computerScore := 2
  scoredThisRound := true
  isPlayerBatting := true
  isOut := false
  innings := 1
  roundNum := 1
  gameStarted := true
  target := none
  gameOver := false

theorem scored_at_most_once_witness :
    (step w1State noInput).scoredThisRound = true ∧
      (step w1State noInput).playerScore = w1State.playerScore :=
  ⟨(scored_at_most_once w1State noInput rfl (by decide) (by decide)).1,
   ((scored_at_most_once w1State noInput rfl (by decide) (by decide)).2 rfl
      (by decide) (by decide)).1⟩

/-- C2: in the resolve window (15 < clock < 25) with capture succeeded, the
round not yet scored and both moves equal, the tick records a dismissal:
`isOut` becomes true, `gameOver` becomes true exactly when `innings = 2`,
and neither score changes. -/
theorem dismissal_step (s : GameState) (inp : TickInput)
    (hg : s.gameStarted = true) (h1 : 15 < s.clock) (h2 : s.clock < 25)
    (hsu : s.success = true) (hsc : s.scoredThisRound = false)
    (pm : Nat) (hp : s.playerMove = some pm) (hc : s.computerMove = some pm)
    (hk : inp.key ≠ Key.restartKey) :
    (step s inp).isOut = true ∧
      ((step s inp).gameOver = true ↔ s.innings = 2) ∧
      (step s inp).playerScore = s.playerScore ∧
      (step s inp).computerScore = s.computerScore := by
  have hrs : roundStart s = s := roundStart_of_not s (by rintro ⟨h0, -⟩; omega)
  have hgl := gameLogic_out s inp hg h1 h2 hsu hsc (hp.trans hc.symm)
  have hgst : (gameLogic s inp).gameStarted = true := by rw [hgl]; exact hg
  unfold step
  rw [hrs, keyLogic_started_nonrestart _ _ hgst hk, clockInc_isOut,
      clockInc_gameOver, clockInc_playerScore, clockInc_computerScore, hgl]
  refine ⟨rfl, ?_, rfl, rfl⟩
  simp

def w2State : GameState where
  clock := 17
  playerMove := some 4
  computerMove := some 4
  gametext := ""
  success := true
  gameresult := ""
  playerScore := 9
  computerScore := 0
  scoredThisRound := false
  isPlayerBatting := true
  isOut := false
  innings := 1
  roundNum := 2
  gameStarted := true
  target := none
  gameOver := false

theorem dismissal_step_witness :
    (step w2State noInput).isOut = true ∧
      ((step w2State noInput).gameOver = true ↔ w2State.innings = 2) ∧
      (step w2State noInput).playerScore = w2State.playerScore ∧
      (step w2State noInput).computerScore = w2State.computerScore :=
  dismissal_step w2State noInput rfl (by decide) (by decide) rfl rfl 4 rfl rfl
    (by decide)

/-- C3: in the resolve window with capture succeeded, the round not yet
scored and the moves different, exactly the batting side's score grows, by
the batting side's own move value; the other side's move adds nothing. -/
theorem scoring_step (s : GameState) (inp : TickInput)
    (hg : s.gameStarted = true) (h1 : 15 < s.clock) (h2 : s.clock < 25)
    (hsu : s.success = true) (hsc : s.scoredThisRound = false)
    (pm cm : Nat) (hp : s.playerMove = some pm) (hc : s.computerMove = some cm)
    (hne : pm ≠ cm)
    (hk : inp.key ≠ Key.restartKey) :
    (step s inp).playerScore
        = s.playerScore + (if s.isPlayerBatting = true then pm else 0) ∧
      (step s inp).computerScore
        = s.computerScore + (if s.isPlayerBatting = true then 0 else cm) := by
  have hrs : roundStart s = s := roundStart_of_not s (by rintro ⟨h0, -⟩; omega)
  have hne' : s.playerMove ≠ s.computerMove := by
    rw [hp, hc]
    simp [hne]
  cases hb : s.isPlayerBatting
  · by_cases hch : s.innings = 2 ∧ s.computerScore + s.computerMove.getD 0 > s.playerScore
    · have hgl := gameLogic_score_comp_chase s inp hg h1 h2 hsu hsc hne' hb hch
      have hgst : (gameLogic s inp).gameStarted = true := by rw [hgl]; exact hg
      unfold step
      rw [hrs, keyLogic_started_nonrestart _ _ hgst hk, clockInc_playerScore,
          clockInc_computerScore, hgl]
      simp [hc]
    · have hgl := gameLogic_score_comp_nochase s inp hg h1 h2 hsu hsc hne' hb hch
      have hgst : (gameLogic s inp).gameStarted = true := by rw [hgl]; exact hg
      unfold step
      rw [hrs, keyLogic_started_nonrestart _ _ hgst hk, clockInc_playerScore,
          clockInc_computerScore, hgl]
      simp [hc]
  · have hgl := gameLogic_score_player s inp hg h1 h2 hsu hsc hne' hb
    have hgst : (gameLogic s inp).gameStarted = true := by rw [hgl]; exact hg
    unfold step
    rw [hrs, keyLogic_started_nonrestart _ _ hgst hk, clockInc_playerScore,
        clockInc_computerScore, hgl]
    simp [hp]

def w3State : GameState where
  clock := 20
  playerMove := some 6
  computerMove := some 2
  gametext := ""
  success := true
  gameresult := ""
  playerScore := 10
  computerScore := 0
  scoredThisRound := false
  isPlayerBatting := true
  isOut := false
  innings := 1
  roundNum := 3
  gameStarted := true
  target := none
  gameOver := false

theorem scoring_step_witness :
    (step w3State noInput).playerScore
        = w3State.playerScore + (if w3State.isPlayerBatting = true then 6 else 0) ∧
      (step w3State noInput).computerScore
        = w3State.computerScore + (if w3State.isPlayerBatting = true then 0 else 2) :=
  scoring_step w3State noInput rfl (by decide) (by decide) rfl rfl 6 2 rfl rfl
    (by decide) (by decide)

/-- C4: with the computer batting in innings 2, when its round's runs push
`computerScore` past `playerScore`, the match ends at that very tick: the
chase-success shortcut sets `isOut` and `gameOver` there and announces the
computer's win, without waiting for the checkpoint tick 25. -/
theorem chase_success_step (s : GameState) (inp : TickInput)
    (hg : s.gameStarted = true) (h1 : 15 < s.clock) (h2 : s.clock < 25)
    (hsu : s.success = true) (hsc : s.scoredThisRound = false)
    (pm cm : Nat) (hp : s.playerMove = some pm) (hc : s.computerMove = some cm)
    (hne : pm ≠ cm) (hb : s.isPlayerBatting = false) (hi : s.innings = 2)
    (hchase : s.playerScore < s.computerScore + cm)
    (hk : inp.key ≠ Key.restartKey) :
    (step s inp).gameOver = true ∧ (step s inp).isOut = true ∧
      (step s inp).computerScore = s.computerScore + cm ∧
      (step s inp).playerScore = s.playerScore ∧
      (step s inp).gametext = chasedText s.playerScore := by
  have hrs : roundStart s = s := roundStart_of_not s (by rintro ⟨h0, -⟩; omega)
  have hne' : s.playerMove ≠ s.computerMove := by
    rw [hp, hc]
    simp [hne]
  have hch : s.innings = 2 ∧ s.computerScore + s.computerMove.getD 0 > s.playerScore := by
    rw [hc]
    exact ⟨hi, hchase⟩
  have hgl := gameLogic_score_comp_chase s inp hg h1 h2 hsu hsc hne' hb hch
  have hgst : (gameLogic s inp).gameStarted = true := by rw [hgl]; exact hg
  unfold step
  rw [hrs, keyLogic_started_nonrestart _ _ hgst hk, clockInc_gameOver,
      clockInc_isOut, clockInc_computerScore, clockInc_playerScore,
      clockInc_gametext, hgl]
  simp [hc]

def w4State : GameState where
  clock := 19
  playerMove := some 1
  computerMove := some 6
  gametext := ""
  success := true
  gameresult := ""
  playerScore := 8
  computerScore := 3
  scoredThisRound := false
  isPlayerBatting := false
  isOut := false
  innings := 2
  roundNum := 7
  gameStarted := true
  target := some 8
  gameOver := false

theorem chase_success_step_witness :
    (step w4State noInput).gameOver = true ∧ (step w4State noInput).isOut = true ∧
      (step w4State noInput).computerScore = w4State.computerScore + 6 ∧
      (step w4State noInput).playerScore = w4State.playerScore ∧
      (step w4State noInput).gametext = chasedText w4State.playerScore :=
  chase_success_step w4State noInput rfl (by decide) (by decide) rfl rfl 1 6 rfl
    rfl (by decide) rfl rfl (by decide) (by decide)

/-- C5: at the checkpoint tick (clock 25) in innings 1 with a dismissal,
the innings handover runs: the target becomes the player's score, the
computer starts batting, the dismissal flag is cleared, the innings
becomes 2, the game is not over afterwards, and neither score changes. -/
theorem innings_transition_step (s : GameState) (inp : TickInput)
    (hg : s.gameStarted = true) (h25 : s.clock = 25) (ho : s.isOut = true)
    (hi : s.innings = 1) :
    (step s inp).target = some s.playerScore ∧
      (step s inp).isPlayerBatting = false ∧
      (step s inp).isOut = false ∧
      (step s inp).innings = 2 ∧
      (step s inp).gameOver = false ∧
      (step s inp).playerScore = s.playerScore ∧
      (step s inp).computerScore = s.computerScore := by
  have hrs : roundStart s = s := roundStart_of_not s (by rintro ⟨h0, -⟩; omega)
  have hgl := gameLogic_innings_transition s inp hg h25 ho hi
  have hgst : (gameLogic s inp).gameStarted = true := by rw [hgl]; exact hg
  have hgov : (gameLogic s inp).gameOver = false := by rw [hgl]
  unfold step
  rw [hrs, keyLogic_ignored _ _ hgst hgov, clockInc_target,
      clockInc_isPlayerBatting, clockInc_isOut, clockInc_innings,
      clockInc_gameOver, clockInc_playerScore, clockInc_computerScore, hgl]
  refine ⟨rfl, rfl, rfl, ?_, rfl, rfl, rfl⟩
  show s.innings + 1 = 2
  omega

def w5State : GameState where
  clock := 25
  playerMove := some 4
  computerMove := some 4
  gametext := ""
  success := true
  gameresult := ""
  playerScore := 12
  computerScore := 0
  scoredThisRound := true
  isPlayerBatting := true
  isOut := true
  innings := 1
  roundNum := 3
  gameStarted := true
  target := none
  gameOver := false

theorem innings_transition_step_witness :
    (step w5State noInput).target = some w5State.playerScore ∧
      (step w5State noInput).isPlayerBatting = false ∧
      (step w5State noInput).isOut = false ∧
      (step w5State noInput).innings = 2 ∧
      (step w5State noInput).gameOver = false ∧
      (step w5State noInput).playerScore = w5State.playerScore ∧
      (step w5State noInput).computerScore = w5State.computerScore :=
  innings_transition_step w5State noInput rfl (by decide) rfl rfl

/-- C6: at the checkpoint tick (clock 25) in innings 2 with a dismissal and
the match not already ended by the chase shortcut, the match is finalized:
`gameOver` becomes true and the announced result is a win exactly when the
player's score is larger, a loss exactly when the computer's score is
larger, and a tie exactly when they are equal, so score trichotomy makes
the three results mutually exclusive and exhaustive. -/
theorem finalize_step (s : GameState) (inp : TickInput)
    (hg : s.gameStarted = true) (h25 : s.clock = 25) (ho : s.isOut = true)
    (hi : s.innings = 2) (hnov : s.gameOver = false)
    (hk : inp.key ≠ Key.restartKey) :
    (step s inp).gameOver = true ∧
      ((step s inp).gametext = winText ↔ s.computerScore < s.playerScore) ∧
      ((step s inp).gametext = loseText ↔ s.playerScore < s.computerScore) ∧
      ((step s inp).gametext = tieText ↔ s.playerScore = s.computerScore) := by
  have hrs : roundStart s = s := roundStart_of_not s (by rintro ⟨h0, -⟩; omega)
  have hgl := gameLogic_finalize s inp hg h25 ho (by omega)
  have hgst : (gameLogic s inp).gameStarted = true := by
    rw [hgl]
    split_ifs <;> exact hg
  unfold step
  rw [hrs, keyLogic_started_nonrestart _ _ hgst hk, clockInc_gameOver,
      clockInc_gametext, hgl]
  split_ifs with hwin hlose
  · exact ⟨rfl, iff_of_true rfl hwin,
      iff_of_false (show ¬winText = loseText by decide) (by omega),
      iff_of_false (show ¬winText = tieText by decide) (by omega)⟩
  · exact ⟨rfl, iff_of_false (show ¬loseText = winText by decide) (by omega),
      iff_of_true rfl hlose,
      iff_of_false (show ¬loseText = tieText by decide) (by omega)⟩
  · exact ⟨rfl, iff_of_false (show ¬tieText = winText by decide) (by omega),
      iff_of_false (show ¬tieText = loseText by decide) (by omega),
      iff_of_true rfl (by omega)⟩

def w6State : GameState where
  clock := 25
  playerMove := some 3
  computerMove := some 3
  gametext := ""
  success := true
  gameresult := ""
  playerScore := 12
  computerScore := 7
  scoredThisRound := true
  isPlayerBatting := false
  isOut := true
  innings := 2
  roundNum := 9
  gameStarted := true
  target := some 12
  gameOver := false

theorem finalize_step_witness :
    (step w6State noInput).gameOver = true ∧
      ((step w6State noInput).gametext = winText ↔
        w6State.computerScore < w6State.playerScore) ∧
      ((step w6State noInput).gametext = loseText ↔
        w6State.playerScore < w6State.computerScore) ∧
      ((step w6State noInput).gametext = tieText ↔
        w6State.playerScore = w6State.computerScore) :=
  finalize_step w6State noInput rfl (by decide) rfl rfl rfl (by decide)

/-- C9: a capture tick with no detected hand only marks the round
unresolved (`success := false`), defaulting no move and touching no match
state; every later resolve-window tick of such a round shows only the
retry message and mutates nothing; and the round still reaches
auto-advance, where the clock wraps to 0 for the next round. -/
theorem detection_miss_step (s : GameState) (inp : TickInput)
    (hg : s.gameStarted = true) (hk : inp.key = Key.noKey) :
    (s.clock = 15 → inp.detection = none →
        (step s inp).success = false ∧
        (step s inp).playerMove = s.playerMove ∧
        (step s inp).computerMove = s.computerMove ∧
        (step s inp).playerScore = s.playerScore ∧
        (step s inp).computerScore = s.computerScore ∧
        (step s inp).isOut = s.isOut ∧
        (step s inp).innings = s.innings ∧
        (step s inp).gameOver = s.gameOver) ∧
      (15 < s.clock → s.clock < 25 → s.success = false →
        (step s inp).gametext = retryText ∧
        (step s inp).playerMove = s.playerMove ∧
        (step s inp).computerMove = s.computerMove ∧
        (step s inp).playerScore = s.playerScore ∧
        (step s inp).computerScore = s.computerScore ∧
        (step s inp).isOut = s.isOut ∧
        (step s inp).innings = s.innings ∧
        (step s inp).gameOver = s.gameOver ∧
        (step s inp).scoredThisRound = s.scoredThisRound) ∧
      (25 < s.clock → s.gameOver = false →
        (step s inp).clock = 0 ∧
        (step s inp).success = true ∧
        (step s inp).playerScore = s.playerScore ∧
        (step s inp).computerScore = s.computerScore ∧
        (step s inp).roundNum = s.roundNum) := by
  refine ⟨?_, ?_, ?_⟩
  · intro h15 hd
    have hrs : roundStart s = s := roundStart_of_not s (by rintro ⟨h0, -⟩; omega)
    have hgl := gameLogic_capture_none s inp hg h15 hd
    unfold step
    rw [hrs, hk, keyLogic_noKey, clockInc_success, clockInc_playerMove,
        clockInc_computerMove, clockInc_playerScore, clockInc_computerScore,
        clockInc_isOut, clockInc_innings, clockInc_gameOver, hgl]
    exact ⟨rfl, rfl, rfl, rfl, rfl, rfl, rfl, rfl⟩
  · intro h1 h2 hfail
    have hrs : roundStart s = s := roundStart_of_not s (by rintro ⟨h0, -⟩; omega)
    have hgl := gameLogic_failure s inp hg h1 h2 hfail
    unfold step
    rw [hrs, hk, keyLogic_noKey, clockInc_gametext, clockInc_playerMove,
        clockInc_computerMove, clockInc_playerScore, clockInc_computerScore,
        clockInc_isOut, clockInc_innings, clockInc_gameOver,
        clockInc_scoredThisRound, hgl]
    exact ⟨rfl, rfl, rfl, rfl, rfl, rfl, rfl, rfl, rfl⟩
  · intro h26 hov
    have hrs : roundStart s = s := roundStart_of_not s (by rintro ⟨h0, -⟩; omega)
    have hgl := gameLogic_advance s inp hg h26 hov
    have hgst : (gameLogic s inp).gameStarted = true := by rw [hgl]; exact hg
    have hgov : (gameLogic s inp).gameOver = false := by rw [hgl]; exact hov
    unfold step
    rw [hrs, hk, keyLogic_noKey, clockInc_clock_running _ hgst hgov,
        clockInc_success, clockInc_playerScore, clockInc_computerScore,
        clockInc_roundNum, hgl]
    exact ⟨by norm_num, rfl, rfl, rfl, rfl⟩

def w9State : GameState where
  clock := 15
  playerMove := none
  computerMove := none
  gametext := ""
  success := true
  gameresult := ""
  playerScore := 4
  computerScore := 0
  scoredThisRound := false
  isPlayerBatting := true
  isOut := false
  innings := 1
  roundNum := 2
  gameStarted := true
  target := none
  gameOver := false

theorem detection_miss_step_witness :
    (step w9State noInput).success = false ∧
      (step w9State noInput).playerMove = w9State.playerMove ∧
      (step w9State noInput).playerScore = w9State.playerScore :=
  ⟨((detection_miss_step w9State noInput rfl rfl).1 rfl rfl).1,
   ((detection_miss_step w9State noInput rfl rfl).1 rfl rfl).2.1,
   ((detection_miss_step w9State noInput rfl rfl).1 rfl rfl).2.2.2.1⟩

/-! The target/innings invariant (C7). -/

/-- The coupling invariant: the innings counter is 1 or 2, and the target
is present exactly in the second innings. -/
def TargetInv (s : GameState) : Prop :=
  (s.innings = 1 ∨ s.innings = 2) ∧ (s.target.isSome = true ↔ s.innings = 2)

theorem targetInv_roundStart (s : GameState) (h : TargetInv s) :
    TargetInv (roundStart s) := by
  unfold roundStart
  split_ifs <;> exact h

theorem targetInv_gameLogic (s : GameState) (inp : TickInput)
    (h : TargetInv s) : TargetInv (gameLogic s inp) := by
  cases hg : s.gameStarted
  · rw [gameLogic_not_started s inp hg]
    exact h
  · rcases lt_trichotomy s.clock 15 with hc | hc | hc
    · rcases lt_or_le s.clock 0 with h0 | h0
      · rw [gameLogic_idle_neg s inp hg h0]
        exact h
      · rcases lt_or_le s.clock 5 with h5 | h5
        · rw [gameLogic_leadin s inp hg h0 h5]
          exact h
        · rw [gameLogic_await s inp hg h5 hc]
          exact h
    · cases hd : inp.detection with
      | none =>
          rw [gameLogic_capture_none s inp hg hc hd]
          exact h
      | some p =>
          rw [gameLogic_capture_some s inp hg hc p.1 p.2 (by rw [hd])]
          exact h
    · rcases lt_trichotomy s.clock 25 with h25 | h25 | h25
      · cases hsu : s.success
        · rw [gameLogic_failure s inp hg hc h25 hsu]
          exact h
        · cases hsc : s.scoredThisRound
          · by_cases hmv : s.playerMove = s.computerMove
            · rw [gameLogic_out s inp hg hc h25 hsu hsc hmv]
              exact h
            · cases hb : s.isPlayerBatting
              · by_cases hch : s.innings = 2 ∧
                    s.computerScore + s.computerMove.getD 0 > s.playerScore
                · rw [gameLogic_score_comp_chase s inp hg hc h25 hsu hsc hmv hb hch]
                  exact h
                · rw [gameLogic_score_comp_nochase s inp hg hc h25 hsu hsc hmv hb hch]
                  exact h
              · rw [gameLogic_score_player s inp hg hc h25 hsu hsc hmv hb]
                exact h
          · rw [gameLogic_scored_already s inp hg hc h25 hsu hsc]
            exact h
      · cases ho : s.isOut
        · rw [gameLogic_checkpoint_notOut s inp hg h25 ho]
          exact h
        · by_cases hi : s.innings = 1
          · rw [gameLogic_innings_transition s inp hg h25 ho hi]
            exact ⟨Or.inr (show s.innings + 1 = 2 by omega), by simp [hi]⟩
          · rw [gameLogic_finalize s inp hg h25 ho hi]
            split_ifs <;> exact h
      · cases hov : s.gameOver
        · rw [gameLogic_advance s inp hg h25 hov]
          exact h
        · rw [gameLogic_past_over s inp hg h25 hov]
          exact h

theorem targetInv_keyLogic (s : GameState) (k : Key) (h : TargetInv s) :
    TargetInv (keyLogic s k) := by
  cases k
  · exact h
  · simp only [keyLogic]
    split_ifs <;> exact h
  · simp only [keyLogic]
    split_ifs
    · exact ⟨Or.inl rfl, by simp [restartReset]⟩
    · exact h

theorem targetInv_clockInc (s : GameState) (h : TargetInv s) :
    TargetInv (clockInc s) := by
  refine ⟨?_, ?_⟩
  · rw [clockInc_innings]
    exact h.1
  · rw [clockInc_target, clockInc_innings]
    exact h.2

theorem targetInv_step (s : GameState) (inp : TickInput) (h : TargetInv s) :
    TargetInv (step s inp) :=
  targetInv_clockInc _
    (targetInv_keyLogic _ _ (targetInv_gameLogic _ inp (targetInv_roundStart s h)))

theorem targetInv_runMatch (l : List TickInput) (s : GameState)
    (h : TargetInv s) : TargetInv (runMatch s l) := by
  induction l generalizing s with
  | nil => exact h
  | cons a t ih => exact ih (step s a) (targetInv_step s a h)

/-- C7: in every state reachable from the initial state by any sequence of
ticks (including start and restart commands), the target is present if and
only if the innings counter is 2; it appears only at the innings handover,
and the restart reset clears the target and the innings counter together. -/
theorem target_iff_second_innings (l : List TickInput) :
    ((runMatch initState l).target.isSome = true ↔
        (runMatch initState l).innings = 2) ∧
      (restartReset (runMatch initState l)).target = none ∧
      (restartReset (runMatch initState l)).innings = 1 := by
  refine ⟨(targetInv_runMatch l initState ⟨Or.inl rfl, ?_⟩).2, rfl, rfl⟩
  simp [initState]

end HandCricket
